import Mathlib

/-!
Verification of the aggregation core of the `stats-action` GitHub statistics
collector (TypeScript sources under `src/`).  The asynchronous fetch layer is
modelled by explicit data: a settled promise becomes a `SettledResult`, a
fallible fetch becomes an `Except`, and wall-clock inputs (today's date, the
current year, the locale weekday function) become explicit parameters.
JavaScript numbers holding counts and byte sizes are modelled as `Nat`;
values produced by floating-point division and `Math.round` are modelled
exactly in `ℚ`.
-/

namespace StatsAction

/-- JavaScript `Math.round`: rounds to the nearest integer, halves toward
positive infinity, i.e. `⌊x + 1/2⌋`. -/
def jsRound (q : ℚ) : ℤ := ⌊q + 1/2⌋

/-- The source's rounding to two decimals: the JS `Math.round(x * 100) / 100`. -/
def round2 (q : ℚ) : ℚ := (jsRound (q * 100) : ℚ) / 100

/-- Outcome of one settled promise, as produced by `Promise.allSettled`:
either `fulfilled` with the resolved value or `rejected` with the reason. -/
inductive SettledResult (ε ρ : Type) where
  | fulfilled (value : ρ)
  | rejected (reason : ε)
deriving DecidableEq, Repr

/-- A processor call `processor(item)` settled into a `SettledResult`:
a normal return fulfills, a thrown error rejects.  The processor itself is
modelled as an `Except`-valued function. -/
def settleOutcome {α ε ρ : Type} (processor : α → Except ε ρ) (x : α) :
    SettledResult ε ρ :=
  match processor x with
  | Except.ok v => SettledResult.fulfilled v
  | Except.error e => SettledResult.rejected e

/-- Function `processBatched` from `src/src/index.ts` (lines 36-50): walk the item list
in slices of `batchSize`, settle every call in the slice with
`Promise.allSettled(batch.map(processor))`, and append the slice's results.
The JS loop index advances by `batchSize`, so it terminates only when
`batchSize ≥ 1` (or the list is empty); outside that domain the embedding
returns `[]`. -/
def processBatched {α ε ρ : Type} (items : List α) (batchSize : Nat)
    (processor : α → Except ε ρ) : List (SettledResult ε ρ) :=
  match items with
  | [] => []
  | x :: rest =>
    if _hbs : 0 < batchSize then
      ((x :: rest).take batchSize).map (settleOutcome processor) ++
        processBatched ((x :: rest).drop batchSize) batchSize processor
    else
      []
termination_by items.length
decreasing_by
  simp only [List.length_drop, List.length_cons]
  omega

lemma processBatched_eq_map {α ε ρ : Type} (batchSize : Nat)
    (processor : α → Except ε ρ) (h : 1 ≤ batchSize) (items : List α) :
    processBatched items batchSize processor = items.map (settleOutcome processor) := by
  generalize hl : items.length = n
  induction n using Nat.strong_induction_on generalizing items with
  | _ n ih =>
    match items with
    | [] => rw [processBatched]; rfl
    | x :: rest =>
      rw [processBatched, dif_pos (show 0 < batchSize by omega)]
      rw [ih ((x :: rest).drop batchSize).length
            (by simp only [List.length_drop, List.length_cons] at *; omega)
            ((x :: rest).drop batchSize) rfl]
      rw [← List.map_append, List.take_append_drop]

/-- C2: for every item list and every batch size ≥ 1, `processBatched` returns
a list of exactly the input's length whose entry at index `i` is the settled
outcome (fulfilled with the processor's value or rejected with its reason) of
the processor applied to the input item at index `i`; a failing item never
shortens, reorders, or aborts the batch, and every item's outcome appears. -/
theorem processBatched_preserves_order_and_length {α ε ρ : Type}
    (items : List α) (batchSize : Nat) (processor : α → Except ε ρ)
    (h : 1 ≤ batchSize) :
    (processBatched items batchSize processor).length = items.length ∧
    ∀ i : Nat, (processBatched items batchSize processor)[i]? =
      (items[i]?).map (settleOutcome processor) := by
  rw [processBatched_eq_map batchSize processor h items]
  exact ⟨List.length_map _ _, fun i => List.getElem?_map _ _ _⟩

/-- Witness for C2: five items, batch size 2, with item 3 throwing; the output
has five entries in input order with exactly the third rejected. -/
theorem processBatched_preserves_order_and_length_witness :
    (1 ≤ 2 ∧
      (processBatched [1, 2, 3, 4, 5] 2
        (fun n : Nat => if n = 3 then Except.error "boom" else Except.ok (2 * n))).length = 5) ∧
    (processBatched [1, 2, 3, 4, 5] 2
        (fun n : Nat => if n = 3 then Except.error "boom" else Except.ok (2 * n)))[2]? =
      some (SettledResult.rejected "boom") := by
  have main := processBatched_preserves_order_and_length [1, 2, 3, 4, 5] 2
    (fun n : Nat => if n = 3 then Except.error "boom" else Except.ok (2 * n))
    (by decide)
  refine ⟨⟨by decide, main.1⟩, ?_⟩
  rw [main.2 2]
  decide

/-! ## Contributor-stats retrier (`getReposContributorsStats`) -/

/-- Retry cap from `src/src/index.ts` (line 18). -/
def MAX_RETRY_COUNT : Nat := 5

/-- Fixed retry delay in milliseconds from `src/src/index.ts` (line 20); it
only affects timing, not the value computed. -/
def RETRY_DELAY_MS : Nat := 2000

/-- Default batch size from `src/src/index.ts` (line 19). -/
def BATCH_SIZE : Nat := 10

/-- A REST response: HTTP status plus a typed body. -/
structure Resp (δ : Type) where
  status : Nat
  data : δ
deriving DecidableEq, Repr

/-- Function `getReposContributorsStats` from `src/src/index.ts` (lines 318-347).
The REST endpoint is modelled as `fetch : Nat → Except String (Resp δ)`
giving the response (or thrown transport error) of the attempt made at a
given `retryCount`.  A 202 status below the cap sleeps (irrelevant here) and
returns the awaited recursive call; a 202 at the cap returns `undefined`
(`none`); a thrown error is caught and also yields `undefined`. -/
def getReposContributorsStats {δ : Type} (fetch : Nat → Except String (Resp δ))
    (retryCount : Nat) : Option (Resp δ) :=
  match fetch retryCount with
  | Except.error _ => none
  | Except.ok response =>
    if response.status = 202 then
      if MAX_RETRY_COUNT ≤ retryCount then none
      else getReposContributorsStats fetch (retryCount + 1)
    else
      some response
termination_by MAX_RETRY_COUNT + 1 - retryCount
decreasing_by
  rename_i hcap
  simp only [not_le] at hcap
  omega

/-- Number of REST attempts `getReposContributorsStats` performs, counted by
the same recursion structure as the source. -/
def getReposContributorsStatsAttempts {δ : Type}
    (fetch : Nat → Except String (Resp δ)) (retryCount : Nat) : Nat :=
  match fetch retryCount with
  | Except.error _ => 1
  | Except.ok response =>
    if response.status = 202 then
      if MAX_RETRY_COUNT ≤ retryCount then 1
      else 1 + getReposContributorsStatsAttempts fetch (retryCount + 1)
    else
      1
termination_by MAX_RETRY_COUNT + 1 - retryCount
decreasing_by
  rename_i hcap
  simp only [not_le] at hcap
  omega

lemma getReposContributorsStats_all202_none {δ : Type}
    (fetch : Nat → Except String (Resp δ))
    (h : ∀ n, ∃ r, fetch n = Except.ok r ∧ r.status = 202) :
    ∀ retryCount, getReposContributorsStats fetch retryCount = none := by
  intro retryCount
  generalize hm : MAX_RETRY_COUNT + 1 - retryCount = m
  induction m using Nat.strong_induction_on generalizing retryCount with
  | _ m ih =>
    obtain ⟨r, hr, hs⟩ := h retryCount
    rw [getReposContributorsStats, hr]
    simp only [hs, if_true]
    by_cases hcap : MAX_RETRY_COUNT ≤ retryCount
    · rw [if_pos hcap]
    · rw [if_neg hcap]
      exact ih (MAX_RETRY_COUNT + 1 - (retryCount + 1)) (by omega) (retryCount + 1) rfl

lemma getReposContributorsStatsAttempts_all202 {δ : Type}
    (fetch : Nat → Except String (Resp δ))
    (h : ∀ n, ∃ r, fetch n = Except.ok r ∧ r.status = 202) :
    ∀ retryCount, retryCount ≤ MAX_RETRY_COUNT →
      getReposContributorsStatsAttempts fetch retryCount =
        MAX_RETRY_COUNT + 1 - retryCount := by
  intro retryCount
  generalize hm : MAX_RETRY_COUNT + 1 - retryCount = m
  induction m using Nat.strong_induction_on generalizing retryCount with
  | _ m ih =>
    intro hle
    obtain ⟨r, hr, hs⟩ := h retryCount
    rw [getReposContributorsStatsAttempts, hr]
    simp only [hs, if_true]
    by_cases hcap : MAX_RETRY_COUNT ≤ retryCount
    · rw [if_pos hcap]
      omega
    · rw [if_neg hcap]
      rw [ih (MAX_RETRY_COUNT + 1 - (retryCount + 1)) (by omega) (retryCount + 1) rfl
            (by omega)]
      omega

/-- C3: if every attempt yields a 202-status response, the retrier stops after
the hard cap — exactly `MAX_RETRY_COUNT + 1` attempts starting from retry
count 0 — and returns "no data" (`none`); it never retries indefinitely. -/
theorem getReposContributorsStats_gives_up_after_cap {δ : Type}
    (fetch : Nat → Except String (Resp δ))
    (h : ∀ n, ∃ r, fetch n = Except.ok r ∧ r.status = 202) :
    getReposContributorsStats fetch 0 = none ∧
    getReposContributorsStatsAttempts fetch 0 = MAX_RETRY_COUNT + 1 := by
  refine ⟨getReposContributorsStats_all202_none fetch h 0, ?_⟩
  rw [getReposContributorsStatsAttempts_all202 fetch h 0 (by decide)]
  omega

/-- Witness for C3: a mock endpoint that always returns 202 yields `none`
after 6 attempts (initial call plus 5 retries). -/
theorem getReposContributorsStats_gives_up_after_cap_witness :
    getReposContributorsStats (fun _ => Except.ok (Resp.mk 202 (0 : Nat))) 0 = none ∧
    getReposContributorsStatsAttempts (fun _ => Except.ok (Resp.mk 202 (0 : Nat))) 0 = 6 :=
  getReposContributorsStats_gives_up_after_cap
    (fun _ => Except.ok (Resp.mk 202 (0 : Nat)))
    (fun _ => ⟨Resp.mk 202 (0 : Nat), rfl, rfl⟩)

/-- The `getReposContributorsStats` variant in `src/src/octokit.ts`
(lines 191-218).  On a response, when the status is 202 the source schedules a
second `getContributorsStats` call inside `setTimeout` but never returns or
awaits that promise, so the function resolves with the original response
unchanged; a rejection is re-thrown wrapped in a new message. -/
def getReposContributorsStatsOctokit {δ : Type} (repo : String)
    (fetch : Except String (Resp δ)) : Except String (Resp δ) :=
  match fetch with
  | Except.ok res => Except.ok res
  | Except.error e =>
    Except.error ("Failed to fetch data for repo " ++ repo ++ ": " ++ e)

lemma getReposContributorsStats_ne_202 {δ : Type}
    (fetch : Nat → Except String (Resp δ)) :
    ∀ retryCount r, getReposContributorsStats fetch retryCount = some r →
      r.status ≠ 202 := by
  intro retryCount
  generalize hm : MAX_RETRY_COUNT + 1 - retryCount = m
  induction m using Nat.strong_induction_on generalizing retryCount with
  | _ m ih =>
    intro r hsome
    rw [getReposContributorsStats] at hsome
    cases hf : fetch retryCount with
    | error e => rw [hf] at hsome; exact absurd hsome (by simp)
    | ok response =>
      rw [hf] at hsome
      dsimp only at hsome
      by_cases hs : response.status = 202
      · rw [if_pos hs] at hsome
        by_cases hcap : MAX_RETRY_COUNT ≤ retryCount
        · rw [if_pos hcap] at hsome; exact absurd hsome (by simp)
        · rw [if_neg hcap] at hsome
          exact ih (MAX_RETRY_COUNT + 1 - (retryCount + 1)) (by omega)
            (retryCount + 1) rfl r hsome
      · rw [if_neg hs] at hsome
        cases hsome
        exact hs

/-- C4: in the `src/src/index.ts` retrier, a 202 response below the cap makes
the function resolve with exactly the resolution of the retried invocation,
and the function never resolves with a 202 response; in the
`src/src/octokit.ts` variant this does not hold — the `setTimeout`-based
retry's promise is dropped and the function resolves with the original 202
response. -/
theorem contributorsStats_retry_awaited_octokit_variant_drops_retry {δ : Type} :
    (∀ (fetch : Nat → Except String (Resp δ)) (retryCount : Nat) (r : Resp δ),
        fetch retryCount = Except.ok r → r.status = 202 →
        retryCount < MAX_RETRY_COUNT →
        getReposContributorsStats fetch retryCount =
          getReposContributorsStats fetch (retryCount + 1)) ∧
    (∀ (fetch : Nat → Except String (Resp δ)) (retryCount : Nat) (r : Resp δ),
        getReposContributorsStats fetch retryCount = some r → r.status ≠ 202) ∧
    (∀ (repo : String) (r : Resp δ), r.status = 202 →
        getReposContributorsStatsOctokit repo (Except.ok r) = Except.ok r) := by
  refine ⟨?_, ?_, ?_⟩
  · intro fetch retryCount r hr hs hlt
    rw [getReposContributorsStats, hr]
    simp only [hs, if_true]
    rw [if_neg (by omega)]
  · intro fetch retryCount r hsome
    exact getReposContributorsStats_ne_202 fetch retryCount r hsome
  · intro repo r _
    rfl

/-- Witness for C4: with a 202 then 200 response sequence, the index.ts
retrier resolves with the 200 response of the retried call, while the
octokit.ts variant resolves with the original 202 response. -/
theorem contributorsStats_retry_awaited_octokit_variant_drops_retry_witness :
    getReposContributorsStats
        (fun n => if n = 0 then Except.ok (Resp.mk 202 (7 : Nat))
                  else Except.ok (Resp.mk 200 (7 : Nat))) 0 =
      getReposContributorsStats
        (fun n => if n = 0 then Except.ok (Resp.mk 202 (7 : Nat))
                  else Except.ok (Resp.mk 200 (7 : Nat))) 1 ∧
    getReposContributorsStatsOctokit "repo" (Except.ok (Resp.mk 202 (7 : Nat))) =
      Except.ok (Resp.mk 202 (7 : Nat)) := by
  have main := contributorsStats_retry_awaited_octokit_variant_drops_retry (δ := Nat)
  exact ⟨main.1 _ 0 (Resp.mk 202 7) rfl rfl (by decide),
    main.2.2 "repo" (Resp.mk 202 7) rfl⟩

/-! ## Contribution-collection merger (`getContributionCollection`) -/

/-- One day of the contribution calendar (`src/src/Types.ts`). -/
structure ContributionDay where
  contributionCount : Nat
  date : String
deriving DecidableEq, Repr

/-- One week of the contribution calendar. -/
structure ContributionWeek where
  contributionDays : List ContributionDay
deriving DecidableEq, Repr

/-- The contribution calendar: the API-reported total plus the week grid. -/
structure ContributionCalendar where
  totalContributions : Nat
  weeks : List ContributionWeek
deriving DecidableEq, Repr

/-- Type `ContributionsCollection` from `src/src/Types.ts`. -/
structure ContributionsCollection where
  totalCommitContributions : Nat
  restrictedContributionsCount : Nat
  totalIssueContributions : Nat
  totalRepositoryContributions : Nat
  totalPullRequestContributions : Nat
  totalPullRequestReviewContributions : Nat
  contributionCalendar : ContributionCalendar
deriving DecidableEq, Repr

/-- One iteration of the merge loop in `getContributionCollection`
(`src/src/index.ts` lines 256-281): add every scalar counter and the calendar
total field-wise and append the year's weeks to the accumulator's weeks. -/
def mergeYearInto (acc year : ContributionsCollection) : ContributionsCollection :=
  { totalCommitContributions :=
      acc.totalCommitContributions + year.totalCommitContributions
    restrictedContributionsCount :=
      acc.restrictedContributionsCount + year.restrictedContributionsCount
    totalIssueContributions :=
      acc.totalIssueContributions + year.totalIssueContributions
    totalRepositoryContributions :=
      acc.totalRepositoryContributions + year.totalRepositoryContributions
    totalPullRequestContributions :=
      acc.totalPullRequestContributions + year.totalPullRequestContributions
    totalPullRequestReviewContributions :=
      acc.totalPullRequestReviewContributions + year.totalPullRequestReviewContributions
    contributionCalendar :=
      { totalContributions :=
          acc.contributionCalendar.totalContributions +
            year.contributionCalendar.totalContributions
        weeks := acc.contributionCalendar.weeks ++ year.contributionCalendar.weeks } }

/-- The result-processing part of `getContributionCollection` from
`src/src/index.ts` (lines 241-283).  The per-year GraphQL promises are issued
in ascending year order and each `.catch` maps a failure to `null`, so
`Promise.allSettled` yields, in ascending year order, `some` collection per
successful year and `none` per failed year — that list is the input here.
The source keeps the fulfilled non-null values (`filterMap id`), throws when
none remain, and otherwise folds the remaining years into the first one. -/
def getContributionCollection
    (yearResults : List (Option ContributionsCollection)) :
    Except String ContributionsCollection :=
  match yearResults.filterMap id with
  | [] => Except.error "Failed to fetch data for all years"
  | y0 :: rest => Except.ok (rest.foldl mergeYearInto y0)

/-- Total contributions recorded in a week's days. -/
def weekDaysCount (w : ContributionWeek) : Nat :=
  (w.contributionDays.map (fun d => d.contributionCount)).sum

/-- Sum of `contributionCount` over all days of all weeks of a collection. -/
def calendarDaysTotal (c : ContributionsCollection) : Nat :=
  (c.contributionCalendar.weeks.map weekDaysCount).sum

/-- The calendar invariant: the reported `totalContributions` equals the sum
of the day counts. -/
def calendarInvariant (c : ContributionsCollection) : Prop :=
  c.contributionCalendar.totalContributions = calendarDaysTotal c

instance (c : ContributionsCollection) : Decidable (calendarInvariant c) := by
  unfold calendarInvariant
  infer_instance

lemma foldl_mergeYearInto_total (rest : List ContributionsCollection)
    (y0 : ContributionsCollection) :
    (rest.foldl mergeYearInto y0).contributionCalendar.totalContributions =
      y0.contributionCalendar.totalContributions +
        (rest.map (fun y => y.contributionCalendar.totalContributions)).sum := by
  induction rest generalizing y0 with
  | nil => simp
  | cons y ys ih =>
    rw [List.foldl_cons, ih (mergeYearInto y0 y)]
    simp only [mergeYearInto, List.map_cons, List.sum_cons]
    omega

lemma foldl_mergeYearInto_weeks (rest : List ContributionsCollection)
    (y0 : ContributionsCollection) :
    (rest.foldl mergeYearInto y0).contributionCalendar.weeks =
      y0.contributionCalendar.weeks ++
        (rest.map (fun y => y.contributionCalendar.weeks)).flatten := by
  induction rest generalizing y0 with
  | nil => simp
  | cons y ys ih =>
    rw [List.foldl_cons, ih (mergeYearInto y0 y)]
    simp only [mergeYearInto, List.map_cons, List.flatten_cons, List.append_assoc]

lemma calendarDaysTotal_foldl_mergeYearInto (rest : List ContributionsCollection)
    (y0 : ContributionsCollection) :
    calendarDaysTotal (rest.foldl mergeYearInto y0) =
      calendarDaysTotal y0 + (rest.map calendarDaysTotal).sum := by
  induction rest generalizing y0 with
  | nil => simp
  | cons y ys ih =>
    rw [List.foldl_cons, ih (mergeYearInto y0 y)]
    simp only [calendarDaysTotal, mergeYearInto, List.map_cons, List.sum_cons,
      List.map_append, List.sum_append]
    omega

/-- C1: whenever `getContributionCollection` succeeds, and every successfully
fetched per-year collection satisfies the calendar invariant, the merged
collection satisfies it too; the merge adds the per-year calendar totals and
appends each year's weeks, in the (ascending-year) input order, to the first
successful year's weeks. -/
theorem getContributionCollection_merge_invariant
    (yearResults : List (Option ContributionsCollection))
    (c : ContributionsCollection)
    (hok : getContributionCollection yearResults = Except.ok c)
    (hinv : ∀ y ∈ yearResults.filterMap id, calendarInvariant y) :
    calendarInvariant c ∧
    c.contributionCalendar.totalContributions =
      ((yearResults.filterMap id).map
        (fun y => y.contributionCalendar.totalContributions)).sum ∧
    c.contributionCalendar.weeks =
      ((yearResults.filterMap id).map
        (fun y => y.contributionCalendar.weeks)).flatten := by
  unfold getContributionCollection at hok
  cases hy : yearResults.filterMap id with
  | nil => rw [hy] at hok; exact absurd hok (by simp)
  | cons y0 rest =>
    rw [hy] at hok hinv
    cases hok
    refine ⟨?_, ?_, ?_⟩
    · unfold calendarInvariant
      rw [foldl_mergeYearInto_total, calendarDaysTotal_foldl_mergeYearInto]
      have h0 : y0.contributionCalendar.totalContributions = calendarDaysTotal y0 :=
        hinv y0 (by simp)
      have hrest : rest.map (fun y => y.contributionCalendar.totalContributions) =
          rest.map calendarDaysTotal := by
        apply List.map_congr_left
        intro y hyy
        exact hinv y (by simp [hyy])
      rw [h0, hrest]
    · rw [foldl_mergeYearInto_total]
      simp
    · rw [foldl_mergeYearInto_weeks]
      simp

/-- Witness for C1: two successful years around one failed year merge into a
collection whose weeks are the two successful years' weeks in order and whose
calendar total is the sum of day counts. -/
theorem getContributionCollection_merge_invariant_witness :
    calendarInvariant
      (ContributionsCollection.mk 5 0 1 0 0 0
        (ContributionCalendar.mk 7
          [ContributionWeek.mk [ContributionDay.mk 3 "2023-01-01",
                                ContributionDay.mk 4 "2023-01-02"],
           ContributionWeek.mk [ContributionDay.mk 0 "2024-06-01"]])) ∧
    (ContributionsCollection.mk 5 0 1 0 0 0
        (ContributionCalendar.mk 7
          [ContributionWeek.mk [ContributionDay.mk 3 "2023-01-01",
                                ContributionDay.mk 4 "2023-01-02"],
           ContributionWeek.mk [ContributionDay.mk 0 "2024-06-01"]])).contributionCalendar.totalContributions =
      (([some (ContributionsCollection.mk 2 0 1 0 0 0
            (ContributionCalendar.mk 7
              [ContributionWeek.mk [ContributionDay.mk 3 "2023-01-01",
                                    ContributionDay.mk 4 "2023-01-02"]])),
          none,
          some (ContributionsCollection.mk 3 0 0 0 0 0
            (ContributionCalendar.mk 0
              [ContributionWeek.mk [ContributionDay.mk 0 "2024-06-01"]]))].filterMap id).map
        (fun y => y.contributionCalendar.totalContributions)).sum ∧
    (ContributionsCollection.mk 5 0 1 0 0 0
        (ContributionCalendar.mk 7
          [ContributionWeek.mk [ContributionDay.mk 3 "2023-01-01",
                                ContributionDay.mk 4 "2023-01-02"],
           ContributionWeek.mk [ContributionDay.mk 0 "2024-06-01"]])).contributionCalendar.weeks =
      (([some (ContributionsCollection.mk 2 0 1 0 0 0
            (ContributionCalendar.mk 7
              [ContributionWeek.mk [ContributionDay.mk 3 "2023-01-01",
                                    ContributionDay.mk 4 "2023-01-02"]])),
          none,
          some (ContributionsCollection.mk 3 0 0 0 0 0
            (ContributionCalendar.mk 0
              [ContributionWeek.mk [ContributionDay.mk 0 "2024-06-01"]]))].filterMap id).map
        (fun y => y.contributionCalendar.weeks)).flatten :=
  getContributionCollection_merge_invariant
    [some (ContributionsCollection.mk 2 0 1 0 0 0
        (ContributionCalendar.mk 7
          [ContributionWeek.mk [ContributionDay.mk 3 "2023-01-01",
                                ContributionDay.mk 4 "2023-01-02"]])),
      none,
      some (ContributionsCollection.mk 3 0 0 0 0 0
        (ContributionCalendar.mk 0
          [ContributionWeek.mk [ContributionDay.mk 0 "2024-06-01"]]))]
    (ContributionsCollection.mk 5 0 1 0 0 0
      (ContributionCalendar.mk 7
        [ContributionWeek.mk [ContributionDay.mk 3 "2023-01-01",
                              ContributionDay.mk 4 "2023-01-02"],
         ContributionWeek.mk [ContributionDay.mk 0 "2024-06-01"]]))
    (by rfl)
    (by decide)

/-- C5: a failed per-year fetch is excluded from the merge rather than treated
as zero — the function's result coincides with its result on the input with
the failures removed; if every year failed it throws the "no data for any
year" error; and if at least one year succeeded it returns a merged
collection, not an error. -/
theorem getContributionCollection_failed_years_excluded
    (yearResults : List (Option ContributionsCollection)) :
    ((∀ r ∈ yearResults, r = none) →
      getContributionCollection yearResults =
        Except.error "Failed to fetch data for all years") ∧
    ((∃ c, some c ∈ yearResults) →
      ∃ m, getContributionCollection yearResults = Except.ok m) ∧
    getContributionCollection yearResults =
      getContributionCollection ((yearResults.filterMap id).map some) := by
  refine ⟨?_, ?_, ?_⟩
  · intro hall
    unfold getContributionCollection
    have : yearResults.filterMap id = [] := by
      rw [List.filterMap_eq_nil_iff]
      intro a ha
      rw [hall a ha]
      rfl
    rw [this]
  · rintro ⟨c, hc⟩
    unfold getContributionCollection
    cases hy : yearResults.filterMap id with
    | nil =>
      rw [List.filterMap_eq_nil_iff] at hy
      have := hy (some c) hc
      exact absurd this (by simp)
    | cons y0 rest => exact ⟨rest.foldl mergeYearInto y0, rfl⟩
  · unfold getContributionCollection
    rw [List.filterMap_map]
    have : (id ∘ some : ContributionsCollection → Option ContributionsCollection) = some :=
      rfl
    rw [this, List.filterMap_some]

/-- Witness for C5: on `[none, none]` the merger throws; on `[none, some c]`
it succeeds; and dropping the failures does not change the result. -/
theorem getContributionCollection_failed_years_excluded_witness :
    getContributionCollection [none, none] =
      Except.error "Failed to fetch data for all years" ∧
    (∃ m, getContributionCollection
        [none, some (ContributionsCollection.mk 1 0 0 0 0 0
          (ContributionCalendar.mk 2 []))] = Except.ok m) ∧
    getContributionCollection
        [none, some (ContributionsCollection.mk 1 0 0 0 0 0
          (ContributionCalendar.mk 2 []))] =
      getContributionCollection
        (([none, some (ContributionsCollection.mk 1 0 0 0 0 0
            (ContributionCalendar.mk 2 []))].filterMap id).map some) := by
  refine ⟨?_, ?_, ?_⟩
  · exact (getContributionCollection_failed_years_excluded [none, none]).1
      (by intro r hr; simpa using hr)
  · exact (getContributionCollection_failed_years_excluded
      [none, some (ContributionsCollection.mk 1 0 0 0 0 0
        (ContributionCalendar.mk 2 []))]).2.1
      ⟨ContributionsCollection.mk 1 0 0 0 0 0 (ContributionCalendar.mk 2 []), by simp⟩
  · exact (getContributionCollection_failed_years_excluded
      [none, some (ContributionsCollection.mk 1 0 0 0 0 0
        (ContributionCalendar.mk 2 []))]).2.2

/-! ## Contribution statistics analyzer (`calculateContributionStats`) -/

/-- Lexicographic comparison of character lists by code point: the order JS
string comparison (`localeCompare` on these ASCII date keys, and the default
`Array.sort` string comparator) induces. -/
def charListLe : List Char → List Char → Bool
  | [], _ => true
  | _ :: _, [] => false
  | a :: as, b :: bs =>
    if a.toNat < b.toNat then true
    else if b.toNat < a.toNat then false
    else charListLe as bs

/-- String comparison used by the source's string sorts. -/
def strLe (a b : String) : Bool := charListLe a.data b.data

/-- An entry of the analyzer's internal `allDays` array: `{date, count}`. -/
structure DayCount where
  date : String
  count : Nat
deriving DecidableEq, Repr

/-- An entry of the analyzer's `monthlyBreakdown`. -/
structure MonthlyContribution where
  month : String
  contributions : Nat
deriving DecidableEq, Repr

/-- Type `ContributionStats` from `src/src/Types.ts`; the three averages are JS
floats, modelled exactly in `ℚ`. -/
structure ContributionStats where
  longestStreak : Nat
  currentStreak : Nat
  mostActiveDay : String
  averagePerDay : ℚ
  averagePerWeek : ℚ
  averagePerMonth : ℚ
  monthlyBreakdown : List MonthlyContribution
deriving DecidableEq, Repr

/-- JS `map.set(k, (map.get(k) || 0) + v)` on an insertion-ordered `Map`:
update the existing entry in place, or append a new entry at the end. -/
def bumpAssoc (m : List (String × Nat)) (k : String) (v : Nat) :
    List (String × Nat) :=
  match m with
  | [] => [(k, v)]
  | (k', v') :: rest =>
    if k' = k then (k', v' + v) :: rest else (k', v') :: bumpAssoc rest k v

/-- One day of the flattening loop in `calculateContributionStats`
(`src/src/index.ts` lines 375-392): push onto `allDays`, bump the monthly
map at the `YYYY-MM` prefix, and bump the weekday map at the day's locale
weekday name.  The locale weekday lookup
(`new Date(date).toLocaleDateString("en-US", {weekday: "long"})`) is an
environment input, passed as `dayOfWeekName`. -/
def collectDay (dayOfWeekName : String → String)
    (s : List DayCount × List (String × Nat) × List (String × Nat))
    (d : ContributionDay) :
    List DayCount × List (String × Nat) × List (String × Nat) :=
  (s.1 ++ [DayCount.mk d.date d.contributionCount],
   bumpAssoc s.2.1 (d.date.take 7) d.contributionCount,
   bumpAssoc s.2.2 (dayOfWeekName d.date) d.contributionCount)

/-- The full flattening pass over all weeks and days. -/
def collectDays (dayOfWeekName : String → String)
    (cc : ContributionsCollection) :
    List DayCount × List (String × Nat) × List (String × Nat) :=
  cc.contributionCalendar.weeks.foldl
    (fun s w => w.contributionDays.foldl (collectDay dayOfWeekName) s)
    ([], [], [])

/-- The sort `allDays.sort((a, b) => a.date.localeCompare(b.date))`: the flattened day
list sorted chronologically (stable, by date string). -/
def sortedDaysOf (dayOfWeekName : String → String)
    (cc : ContributionsCollection) : List DayCount :=
  (collectDays dayOfWeekName cc).1.mergeSort (fun a b => strLe a.date b.date)

/-- The first streak loop (`src/src/index.ts` lines 405-417), walking the
sorted days from the most recent backward with state
`(longestStreak, tempStreak)`; the loop's conditional `currentStreak`
assignment is overwritten by the recomputation below before it is ever read,
so it is not part of the state. -/
def longestStreakOf (days : List DayCount) : Nat :=
  let s := days.reverse.foldl
    (fun s d => if d.count > 0 then (s.1, s.2 + 1) else (max s.1 s.2, 0))
    (0, 0)
  max s.1 s.2

/-- One step of the second streak loop (`src/src/index.ts` lines 421-428),
with a `Bool` flag modelling `break`: count a positive day, break on a
zero-count day whose date is not `today`, and skip a zero-count `today`. -/
def currentStreakStep (today : String) (s : Nat × Bool) (d : DayCount) :
    Nat × Bool :=
  if s.2 then s
  else if d.count > 0 then (s.1 + 1, s.2)
  else if d.date ≠ today then (s.1, true)
  else s

/-- The second streak loop: recompute `currentStreak` from the end of the
sorted day list. -/
def currentStreakOf (today : String) (days : List DayCount) : Nat :=
  (days.reverse.foldl (currentStreakStep today) (0, false)).1

/-- The most-active-day loop (`src/src/index.ts` lines 431-438): start from
the hard-coded `"Sunday"` with max count 0 and take any weekday whose summed
count strictly exceeds the running maximum. -/
def mostActiveDayOf (dow : List (String × Nat)) : String :=
  (dow.foldl (fun s p => if p.2 > s.2 then p else s) ("Sunday", 0)).1

/-- Function `calculateContributionStats` from `src/src/index.ts` (lines 367-462).
`today` models `new Date().toISOString().split("T")[0]`; the `yesterday`
value computed alongside it feeds only the dead `currentStreak` assignment in
the first loop and therefore does not appear. -/
def calculateContributionStats (dayOfWeekName : String → String)
    (today : String) (cc : ContributionsCollection) : ContributionStats :=
  let collected := collectDays dayOfWeekName cc
  let allDays := sortedDaysOf dayOfWeekName cc
  let totalDays : Nat := if allDays.length = 0 then 1 else allDays.length
  let totalContributions := cc.contributionCalendar.totalContributions
  let averagePerDay : ℚ := (totalContributions : ℚ) / (totalDays : ℚ)
  { longestStreak := longestStreakOf allDays
    currentStreak := currentStreakOf today allDays
    mostActiveDay := mostActiveDayOf collected.2.2
    averagePerDay := round2 averagePerDay
    averagePerWeek := round2 (averagePerDay * 7)
    averagePerMonth := round2 (averagePerDay * 30)
    monthlyBreakdown :=
      ((collected.2.1).mergeSort (fun a b => strLe a.1 b.1)).map
        (fun p => MonthlyContribution.mk p.1 p.2) }

/-- The current-streak rule as the specification words it: scan the
most-recent-first day sequence, count consecutive days with positive
contributions, stop at the first zero-count day — unless that day's date is
today, in which case counting continues backward past it. -/
def currentStreakSpec (today : String) : List DayCount → Nat
  | [] => 0
  | d :: rest =>
    if d.count > 0 then currentStreakSpec today rest + 1
    else if d.date = today then currentStreakSpec today rest
    else 0

lemma currentStreakStep_broken (today : String) (l : List DayCount) (n : Nat) :
    l.foldl (currentStreakStep today) (n, true) = (n, true) := by
  induction l with
  | nil => rfl
  | cons d rest ih => rw [List.foldl_cons]; exact ih

lemma currentStreakOf_eq_spec (today : String) :
    ∀ (l : List DayCount) (n : Nat),
      (l.foldl (currentStreakStep today) (n, false)).1 =
        n + currentStreakSpec today l := by
  intro l
  induction l with
  | nil => intro n; simp [currentStreakSpec]
  | cons d rest ih =>
    intro n
    rw [List.foldl_cons]
    by_cases hc : d.count > 0
    · have hstep : currentStreakStep today (n, false) d = (n + 1, false) := by
        simp [currentStreakStep, hc]
      rw [hstep, ih (n + 1)]
      simp only [currentStreakSpec, if_pos hc]
      omega
    · by_cases hd : d.date = today
      · have hstep : currentStreakStep today (n, false) d = (n, false) := by
          simp [currentStreakStep, hc, hd]
        rw [hstep, ih n]
        simp only [currentStreakSpec, if_neg hc, if_pos hd]
      · have hstep : currentStreakStep today (n, false) d = (n, true) := by
          simp [currentStreakStep, hc, hd]
        rw [hstep, currentStreakStep_broken]
        simp only [currentStreakSpec, if_neg hc, if_neg hd]
        omega

/-- C6: the analyzer's `currentStreak` is exactly the claim's backward scan
over the chronologically sorted day sequence: consecutive positive days from
the most recent one, stopping at the first zero-count day except that a
zero-count day dated today is skipped rather than breaking the streak. -/
theorem calculateContributionStats_currentStreak_spec
    (dayOfWeekName : String → String) (today : String)
    (cc : ContributionsCollection) :
    (calculateContributionStats dayOfWeekName today cc).currentStreak =
      currentStreakSpec today (sortedDaysOf dayOfWeekName cc).reverse := by
  show currentStreakOf today (sortedDaysOf dayOfWeekName cc) = _
  unfold currentStreakOf
  rw [currentStreakOf_eq_spec today (sortedDaysOf dayOfWeekName cc).reverse 0]
  omega

lemma collectDays_empty_weeks (dayOfWeekName : String → String)
    (cc : ContributionsCollection)
    (hdays : ∀ w ∈ cc.contributionCalendar.weeks, w.contributionDays = []) :
    collectDays dayOfWeekName cc = ([], [], []) := by
  unfold collectDays
  have aux : ∀ (ws : List ContributionWeek),
      (∀ w ∈ ws, w.contributionDays = []) →
      ws.foldl (fun s w => w.contributionDays.foldl (collectDay dayOfWeekName) s)
        ([], [], []) = ([], [], []) := by
    intro ws
    induction ws with
    | nil => intro _; rfl
    | cons w rest ih =>
      intro hws
      rw [List.foldl_cons, hws w (by simp), List.foldl_nil]
      exact ih (fun w hw => hws w (by simp [hw]))
  exact aux _ hdays

/-- Counterexample to C7 as stated: a collection with no days but a nonzero
API-reported calendar total (the merge invariant violated) makes
`calculateContributionStats` report `averagePerDay = 100`, not 0, because the
average divides the reported total — not the day sum — by the floored
denominator 1. -/
theorem calculateContributionStats_empty_weeks_counterexample :
    (calculateContributionStats (fun _ => "") ""
        (ContributionsCollection.mk 0 0 0 0 0 0
          (ContributionCalendar.mk 100 []))).averagePerDay ≠ 0 ∧
    (calculateContributionStats (fun _ => "") ""
        (ContributionsCollection.mk 0 0 0 0 0 0
          (ContributionCalendar.mk 100 []))).averagePerDay = 100 := by
  have h : (calculateContributionStats (fun _ => "") ""
      (ContributionsCollection.mk 0 0 0 0 0 0
        (ContributionCalendar.mk 100 []))).averagePerDay = 100 := by
    show round2 ((100 : ℚ) / ((if (sortedDaysOf (fun _ => "")
        (ContributionsCollection.mk 0 0 0 0 0 0
          (ContributionCalendar.mk 100 []))).length = 0 then 1
        else (sortedDaysOf (fun _ => "")
          (ContributionsCollection.mk 0 0 0 0 0 0
            (ContributionCalendar.mk 100 []))).length : Nat) : ℚ)) = 100
    have hdays : sortedDaysOf (fun _ => "")
        (ContributionsCollection.mk 0 0 0 0 0 0
          (ContributionCalendar.mk 100 [])) = [] := by
      simp [sortedDaysOf, collectDays]
    rw [hdays]
    norm_num [round2, jsRound]
  exact ⟨by rw [h]; norm_num, h⟩

/-- C7 as amended: for a collection whose weeks contain no days *and whose
reported calendar total is 0* (as the merge invariant guarantees), the
analyzer returns all-zero streaks and averages and an empty monthly
breakdown, with the averages' denominator floored to 1 rather than dividing
by zero. -/
theorem calculateContributionStats_empty_weeks_all_zero
    (dayOfWeekName : String → String) (today : String)
    (cc : ContributionsCollection)
    (hdays : ∀ w ∈ cc.contributionCalendar.weeks, w.contributionDays = [])
    (htotal : cc.contributionCalendar.totalContributions = 0) :
    (calculateContributionStats dayOfWeekName today cc).longestStreak = 0 ∧
    (calculateContributionStats dayOfWeekName today cc).currentStreak = 0 ∧
    (calculateContributionStats dayOfWeekName today cc).averagePerDay = 0 ∧
    (calculateContributionStats dayOfWeekName today cc).averagePerWeek = 0 ∧
    (calculateContributionStats dayOfWeekName today cc).averagePerMonth = 0 ∧
    (calculateContributionStats dayOfWeekName today cc).monthlyBreakdown = [] := by
  have hcollect := collectDays_empty_weeks dayOfWeekName cc hdays
  have hsorted : sortedDaysOf dayOfWeekName cc = [] := by
    unfold sortedDaysOf
    rw [hcollect]
    simp
  unfold calculateContributionStats
  rw [hcollect, hsorted, htotal]
  norm_num [longestStreakOf, currentStreakOf, round2, jsRound]

/-- Witness for C7 (amended): the concrete all-empty collection yields
all-zero statistics. -/
theorem calculateContributionStats_empty_weeks_all_zero_witness :
    (calculateContributionStats (fun _ => "") "2024-06-01"
        (ContributionsCollection.mk 0 0 0 0 0 0
          (ContributionCalendar.mk 0 [ContributionWeek.mk []]))).longestStreak = 0 ∧
    (calculateContributionStats (fun _ => "") "2024-06-01"
        (ContributionsCollection.mk 0 0 0 0 0 0
          (ContributionCalendar.mk 0 [ContributionWeek.mk []]))).currentStreak = 0 ∧
    (calculateContributionStats (fun _ => "") "2024-06-01"
        (ContributionsCollection.mk 0 0 0 0 0 0
          (ContributionCalendar.mk 0 [ContributionWeek.mk []]))).averagePerDay = 0 ∧
    (calculateContributionStats (fun _ => "") "2024-06-01"
        (ContributionsCollection.mk 0 0 0 0 0 0
          (ContributionCalendar.mk 0 [ContributionWeek.mk []]))).averagePerWeek = 0 ∧
    (calculateContributionStats (fun _ => "") "2024-06-01"
        (ContributionsCollection.mk 0 0 0 0 0 0
          (ContributionCalendar.mk 0 [ContributionWeek.mk []]))).averagePerMonth = 0 ∧
    (calculateContributionStats (fun _ => "") "2024-06-01"
        (ContributionsCollection.mk 0 0 0 0 0 0
          (ContributionCalendar.mk 0 [ContributionWeek.mk []]))).monthlyBreakdown = [] :=
  calculateContributionStats_empty_weeks_all_zero (fun _ => "") "2024-06-01"
    (ContributionsCollection.mk 0 0 0 0 0 0
      (ContributionCalendar.mk 0 [ContributionWeek.mk []]))
    (by intro w hw; simp at hw; rw [hw])
    rfl

lemma bumpAssoc_zero (m : List (String × Nat)) (k : String)
    (h : ∀ p ∈ m, p.2 = 0) : ∀ p ∈ bumpAssoc m k 0, p.2 = 0 := by
  induction m with
  | nil => intro p hp; simp [bumpAssoc] at hp; rw [hp]
  | cons q rest ih =>
    intro p hp
    unfold bumpAssoc at hp
    by_cases hk : q.1 = k
    · rw [if_pos hk] at hp
      rcases List.mem_cons.mp hp with h1 | h1
      · rw [h1]
        have := h q (by simp)
        simpa using this
      · exact h p (by simp [h1])
    · rw [if_neg hk] at hp
      rcases List.mem_cons.mp hp with h1 | h1
      · rw [h1]; exact h q (by simp)
      · exact ih (fun p hp => h p (by simp [hp])) p h1

lemma collectDay_dow_zero (dayOfWeekName : String → String)
    (days : List ContributionDay)
    (hz : ∀ d ∈ days, d.contributionCount = 0) :
    ∀ s : List DayCount × List (String × Nat) × List (String × Nat),
      (∀ p ∈ s.2.2, p.2 = 0) →
      ∀ p ∈ (days.foldl (collectDay dayOfWeekName) s).2.2, p.2 = 0 := by
  induction days with
  | nil => intro s hs; exact hs
  | cons d rest ih =>
    intro s hs
    rw [List.foldl_cons]
    apply ih (fun d hd => hz d (by simp [hd]))
    show ∀ p ∈ bumpAssoc s.2.2 (dayOfWeekName d.date) d.contributionCount, p.2 = 0
    rw [hz d (by simp)]
    exact bumpAssoc_zero s.2.2 (dayOfWeekName d.date) hs

lemma collectDays_dow_zero (dayOfWeekName : String → String)
    (cc : ContributionsCollection)
    (hz : ∀ w ∈ cc.contributionCalendar.weeks, ∀ d ∈ w.contributionDays,
      d.contributionCount = 0) :
    ∀ p ∈ (collectDays dayOfWeekName cc).2.2, p.2 = 0 := by
  unfold collectDays
  have : ∀ (ws : List ContributionWeek),
      (∀ w ∈ ws, ∀ d ∈ w.contributionDays, d.contributionCount = 0) →
      ∀ s : List DayCount × List (String × Nat) × List (String × Nat),
        (∀ p ∈ s.2.2, p.2 = 0) →
        ∀ p ∈ (ws.foldl
          (fun s w => w.contributionDays.foldl (collectDay dayOfWeekName) s)
          s).2.2, p.2 = 0 := by
    intro ws
    induction ws with
    | nil => intro _ s hs; exact hs
    | cons w rest ih =>
      intro hws s hs
      rw [List.foldl_cons]
      exact ih (fun w hw => hws w (by simp [hw])) _
        (collectDay_dow_zero dayOfWeekName w.contributionDays
          (hws w (by simp)) s hs)
  exact this cc.contributionCalendar.weeks hz ([], [], []) (by simp)

lemma mostActiveDayOf_all_zero (m : List (String × Nat))
    (h : ∀ p ∈ m, p.2 = 0) : mostActiveDayOf m = "Sunday" := by
  have aux : ∀ (l : List (String × Nat)), (∀ p ∈ l, p.2 = 0) →
      l.foldl (fun s p => if p.2 > s.2 then p else s) ("Sunday", 0) =
        ("Sunday", 0) := by
    intro l
    induction l with
    | nil => intro _; rfl
    | cons p rest ih =>
      intro hl
      rw [List.foldl_cons]
      have hp : p.2 = 0 := hl p (by simp)
      rw [if_neg (by omega)]
      exact ih (fun q hq => hl q (by simp [hq]))
  unfold mostActiveDayOf
  rw [aux m h]

/-- C10: when every day of the collection has a zero contribution count (in
particular when there are no days at all), the analyzer still reports
`mostActiveDay = "Sunday"` — the hard-coded default survives because only a
strictly larger weekday sum replaces it. -/
theorem calculateContributionStats_mostActiveDay_default_sunday
    (dayOfWeekName : String → String) (today : String)
    (cc : ContributionsCollection)
    (hz : ∀ w ∈ cc.contributionCalendar.weeks, ∀ d ∈ w.contributionDays,
      d.contributionCount = 0) :
    (calculateContributionStats dayOfWeekName today cc).mostActiveDay =
      "Sunday" := by
  show mostActiveDayOf (collectDays dayOfWeekName cc).2.2 = "Sunday"
  exact mostActiveDayOf_all_zero _ (collectDays_dow_zero dayOfWeekName cc hz)

/-- Witness for C10: a week of two zero-count days still reports Sunday even
though both days fall on other weekdays. -/
theorem calculateContributionStats_mostActiveDay_default_sunday_witness :
    (calculateContributionStats (fun _ => "Monday") "2024-01-03"
        (ContributionsCollection.mk 0 0 0 0 0 0
          (ContributionCalendar.mk 0
            [ContributionWeek.mk [ContributionDay.mk 0 "2024-01-01",
                                  ContributionDay.mk 0 "2024-01-02"]]))).mostActiveDay =
      "Sunday" :=
  calculateContributionStats_mostActiveDay_default_sunday (fun _ => "Monday")
    "2024-01-03"
    (ContributionsCollection.mk 0 0 0 0 0 0
      (ContributionCalendar.mk 0
        [ContributionWeek.mk [ContributionDay.mk 0 "2024-01-01",
                              ContributionDay.mk 0 "2024-01-02"]]))
    (by decide)

/-! ## Language aggregator (`aggregateLanguages`) -/

/-- A language node of a repository's `languages.edges` GraphQL connection. -/
structure LangNode where
  color : String
  name : String
deriving DecidableEq, Repr

/-- One `languages.edges` entry: byte size plus the language node. -/
structure LanguageEdge where
  size : Nat
  node : LangNode
deriving DecidableEq, Repr

/-- The `languages` connection of one repository. -/
structure LanguagesConnection where
  edges : List LanguageEdge
deriving DecidableEq, Repr

/-- The shape `aggregateLanguages` requires of each repository:
`{ languages: { edges: ... } }`. -/
structure RepoLanguagesView where
  languages : LanguagesConnection
deriving DecidableEq, Repr

/-- Type `Language` from `src/src/Types.ts`; `percentage` is a JS float, modelled
exactly in `ℚ`. -/
structure Language where
  languageName : String
  color : String
  value : Nat
  percentage : ℚ
deriving DecidableEq, Repr

/-- The `{ languages, codeByteTotal }` record `aggregateLanguages` returns. -/
structure AggregatedLanguages where
  languages : List Language
  codeByteTotal : Nat
deriving DecidableEq, Repr

/-- The language `Map` update in `aggregateLanguages` (`src/src/index.ts`
lines 476-488): an existing entry keeps its first-seen color and adds the
size in place; a new language is appended with this edge's color. -/
def upsertLang (m : List (String × String × Nat)) (nm color : String)
    (sz : Nat) : List (String × String × Nat) :=
  match m with
  | [] => [(nm, color, sz)]
  | (k, c, v) :: rest =>
    if k = nm then (k, c, v + sz) :: rest
    else (k, c, v) :: upsertLang rest nm color sz

/-- The accumulation loop of `aggregateLanguages` (`src/src/index.ts` lines
472-489): walk all repositories' edges in input order, carrying the language
map and the running `codeByteTotal`. -/
def langAcc (repos : List RepoLanguagesView) :
    List (String × String × Nat) × Nat :=
  repos.foldl
    (fun s repo => repo.languages.edges.foldl
      (fun s e => (upsertLang s.1 e.node.name e.node.color e.size, s.2 + e.size)) s)
    ([], 0)

/-- Function `aggregateLanguages` from `src/src/index.ts` (lines 467-504): accumulate
byte sizes per language name (and the running `codeByteTotal`) over all
repositories' edges in input order, then emit the entries with percentages
(`Math.round(value / codeByteTotal * 10000) / 100` when the total is
positive, else 0), sorted by value descending (JS stable sort with
comparator `b.value - a.value`). -/
def aggregateLanguages (repos : List RepoLanguagesView) : AggregatedLanguages :=
  let acc := langAcc repos
  let codeByteTotal : Nat := acc.2
  let languages :=
    (acc.1.map (fun p =>
      Language.mk p.1 p.2.1 p.2.2
        (if codeByteTotal > 0
         then (jsRound ((p.2.2 : ℚ) / (codeByteTotal : ℚ) * 10000) : ℚ) / 100
         else 0))).mergeSort (fun a b => decide (b.value ≤ a.value))
  AggregatedLanguages.mk languages codeByteTotal

/-- Sum of the byte values stored in the language accumulator map. -/
def langMapValuesSum (m : List (String × String × Nat)) : Nat :=
  (m.map (fun p => p.2.2)).sum

lemma upsertLang_sum (m : List (String × String × Nat)) (nm color : String)
    (sz : Nat) :
    langMapValuesSum (upsertLang m nm color sz) = langMapValuesSum m + sz := by
  induction m with
  | nil => simp [upsertLang, langMapValuesSum]
  | cons q rest ih =>
    obtain ⟨k, c, v⟩ := q
    unfold upsertLang
    by_cases hk : k = nm
    · rw [if_pos hk]
      simp only [langMapValuesSum, List.map_cons, List.sum_cons]
      omega
    · rw [if_neg hk]
      simp only [langMapValuesSum, List.map_cons, List.sum_cons] at ih ⊢
      omega

lemma langAcc_invariant (repos : List RepoLanguagesView) :
    langMapValuesSum (langAcc repos).1 = (langAcc repos).2 := by
  have edgesAux : ∀ (edges : List LanguageEdge)
      (s : List (String × String × Nat) × Nat),
      langMapValuesSum s.1 = s.2 →
      langMapValuesSum ((edges.foldl
        (fun s e => (upsertLang s.1 e.node.name e.node.color e.size, s.2 + e.size))
        s).1) =
      (edges.foldl
        (fun s e => (upsertLang s.1 e.node.name e.node.color e.size, s.2 + e.size))
        s).2 := by
    intro edges
    induction edges with
    | nil => intro s hs; exact hs
    | cons e rest ih =>
      intro s hs
      rw [List.foldl_cons]
      exact ih _ (by simp only [upsertLang_sum, hs])
  have reposAux : ∀ (rs : List RepoLanguagesView)
      (s : List (String × String × Nat) × Nat),
      langMapValuesSum s.1 = s.2 →
      langMapValuesSum ((rs.foldl
        (fun s repo => repo.languages.edges.foldl
          (fun s e => (upsertLang s.1 e.node.name e.node.color e.size, s.2 + e.size)) s)
        s).1) =
      (rs.foldl
        (fun s repo => repo.languages.edges.foldl
          (fun s e => (upsertLang s.1 e.node.name e.node.color e.size, s.2 + e.size)) s)
        s).2 := by
    intro rs
    induction rs with
    | nil => intro s hs; exact hs
    | cons repo rest ih =>
      intro s hs
      rw [List.foldl_cons]
      exact ih _ (edgesAux repo.languages.edges s hs)
  exact reposAux repos ([], 0) (by simp [langMapValuesSum])

lemma jsRound_abs_le (q : ℚ) : |(jsRound q : ℚ) - q| ≤ 1 / 2 := by
  unfold jsRound
  have h1 : ((⌊q + 1 / 2⌋ : ℤ) : ℚ) ≤ q + 1 / 2 := Int.floor_le _
  have h2 : q + 1 / 2 - 1 < ((⌊q + 1 / 2⌋ : ℤ) : ℚ) := Int.sub_one_lt_floor _
  rw [abs_le]
  constructor <;> linarith

lemma sum_map_jsRound_close (xs : List ℚ) :
    |(xs.map (fun x => (jsRound x : ℚ))).sum - xs.sum| ≤ (xs.length : ℚ) / 2 := by
  induction xs with
  | nil => simp
  | cons x rest ih =>
    simp only [List.map_cons, List.sum_cons, List.length_cons]
    have hsplit : ((jsRound x : ℚ) + (rest.map (fun x => (jsRound x : ℚ))).sum) -
        (x + rest.sum) =
        ((jsRound x : ℚ) - x) +
          ((rest.map (fun x => (jsRound x : ℚ))).sum - rest.sum) := by ring
    rw [hsplit]
    refine le_trans (abs_add _ _) ?_
    have hlen : ((rest.length + 1 : ℕ) : ℚ) / 2 = 1 / 2 + (rest.length : ℚ) / 2 := by
      push_cast
      ring
    rw [hlen]
    exact add_le_add (jsRound_abs_le x) ih

/-- C8: for every repository list, the languages returned by
`aggregateLanguages` have byte values summing to the returned
`codeByteTotal`; each entry's percentage is
`round(value / codeByteTotal * 10000) / 100` when the total is positive and
0 otherwise; when the total is positive the percentages sum to 100 within
the rounding tolerance of half a hundredth per entry; and the empty
repository list yields no languages and total 0. -/
theorem aggregateLanguages_totals_and_percentages (repos : List RepoLanguagesView) :
    ((aggregateLanguages repos).languages.map (fun l => l.value)).sum =
      (aggregateLanguages repos).codeByteTotal ∧
    (∀ l ∈ (aggregateLanguages repos).languages,
      l.percentage =
        if (aggregateLanguages repos).codeByteTotal > 0
        then (jsRound ((l.value : ℚ) /
            ((aggregateLanguages repos).codeByteTotal : ℚ) * 10000) : ℚ) / 100
        else 0) ∧
    ((aggregateLanguages repos).codeByteTotal > 0 →
      |((aggregateLanguages repos).languages.map (fun l => l.percentage)).sum - 100| ≤
        ((aggregateLanguages repos).languages.length : ℚ) / 200) ∧
    aggregateLanguages [] = AggregatedLanguages.mk [] 0 := by
  have hinv : langMapValuesSum (langAcc repos).1 = (langAcc repos).2 :=
    langAcc_invariant repos
  have hTdef : (aggregateLanguages repos).codeByteTotal = (langAcc repos).2 := rfl
  have hlang : (aggregateLanguages repos).languages =
      ((langAcc repos).1.map (fun p =>
        Language.mk p.1 p.2.1 p.2.2
          (if (langAcc repos).2 > 0
           then (jsRound ((p.2.2 : ℚ) / ((langAcc repos).2 : ℚ) * 10000) : ℚ) / 100
           else 0))).mergeSort (fun a b => decide (b.value ≤ a.value)) := rfl
  have hperm := List.mergeSort_perm
    ((langAcc repos).1.map (fun p =>
      Language.mk p.1 p.2.1 p.2.2
        (if (langAcc repos).2 > 0
         then (jsRound ((p.2.2 : ℚ) / ((langAcc repos).2 : ℚ) * 10000) : ℚ) / 100
         else 0)))
    (fun a b => decide (b.value ≤ a.value))
  have hsum : ((aggregateLanguages repos).languages.map (fun l => l.value)).sum =
      (aggregateLanguages repos).codeByteTotal := by
    rw [hlang, hTdef, (hperm.map (fun l => l.value)).sum_eq, List.map_map]
    have hcomp : ((fun l => l.value) ∘ (fun p : String × String × Nat =>
        Language.mk p.1 p.2.1 p.2.2
          (if (langAcc repos).2 > 0
           then (jsRound ((p.2.2 : ℚ) / ((langAcc repos).2 : ℚ) * 10000) : ℚ) / 100
           else 0))) = fun p : String × String × Nat => p.2.2 := rfl
    rw [hcomp]
    exact hinv
  have hmem : ∀ l ∈ (aggregateLanguages repos).languages,
      l.percentage =
        if (aggregateLanguages repos).codeByteTotal > 0
        then (jsRound ((l.value : ℚ) /
            ((aggregateLanguages repos).codeByteTotal : ℚ) * 10000) : ℚ) / 100
        else 0 := by
    intro l hl
    rw [hlang] at hl
    have hl2 := hperm.mem_iff.mp hl
    obtain ⟨p, _, hpl⟩ := List.mem_map.mp hl2
    rw [← hpl, hTdef]
  refine ⟨hsum, hmem, ?_, ?_⟩
  · intro hT
    have hTpos : (0 : ℚ) < ((aggregateLanguages repos).codeByteTotal : ℚ) := by
      exact_mod_cast hT
    set L := (aggregateLanguages repos).languages with hL
    set T := (aggregateLanguages repos).codeByteTotal with hT2
    have hpct : L.map (fun l => l.percentage) =
        L.map (fun l => (jsRound ((l.value : ℚ) / (T : ℚ) * 10000) : ℚ) / 100) := by
      apply List.map_congr_left
      intro l hl
      rw [hmem l hl, if_pos hT]
    have hx : L.map (fun l => (jsRound ((l.value : ℚ) / (T : ℚ) * 10000) : ℚ) / 100) =
        (L.map (fun l => (l.value : ℚ) / (T : ℚ) * 10000)).map
          (fun x => (jsRound x : ℚ) / 100) := by
      rw [List.map_map]
      rfl
    have hxs : (L.map (fun l => (l.value : ℚ) / (T : ℚ) * 10000)).sum = 10000 := by
      have h1 : L.map (fun l => (l.value : ℚ) / (T : ℚ) * 10000) =
          L.map (fun l => (fun l => (l.value : ℚ)) l * (10000 / (T : ℚ))) := by
        apply List.map_congr_left
        intro l _
        field_simp
      rw [h1, List.sum_map_mul_right]
      have h2 : (L.map (fun l => (l.value : ℚ))).sum = (T : ℚ) := by
        have h3 : L.map (fun l => ((l.value : ℚ))) =
            (L.map (fun l => l.value)).map Nat.cast := by
          rw [List.map_map]
          rfl
        rw [h3, ← Nat.cast_list_sum, hsum]
      rw [h2]
      field_simp
    have hdiv : ((L.map (fun l => (l.value : ℚ) / (T : ℚ) * 10000)).map
        (fun x => (jsRound x : ℚ) / 100)).sum =
        ((L.map (fun l => (l.value : ℚ) / (T : ℚ) * 10000)).map
          (fun x => (jsRound x : ℚ))).sum / 100 := by
      have h4 : ((L.map (fun l => (l.value : ℚ) / (T : ℚ) * 10000)).map
          (fun x => (jsRound x : ℚ) / 100)) =
          ((L.map (fun l => (l.value : ℚ) / (T : ℚ) * 10000)).map
            (fun x => (fun x => (jsRound x : ℚ)) x * (1 / 100))) := by
        apply List.map_congr_left
        intro x _
        ring
      rw [h4, List.sum_map_mul_right]
      ring
    rw [hpct, hx, hdiv]
    have hclose := sum_map_jsRound_close (L.map (fun l => (l.value : ℚ) / (T : ℚ) * 10000))
    rw [hxs, List.length_map] at hclose
    have habs : ((L.map (fun l => (l.value : ℚ) / (T : ℚ) * 10000)).map
        (fun x => (jsRound x : ℚ))).sum / 100 - 100 =
        (((L.map (fun l => (l.value : ℚ) / (T : ℚ) * 10000)).map
          (fun x => (jsRound x : ℚ))).sum - 10000) / 100 := by ring
    rw [habs, abs_div]
    rw [abs_of_pos (by norm_num : (0 : ℚ) < 100)]
    rw [div_le_div_iff₀ (by norm_num) (by norm_num : (0 : ℚ) < 200)] at *
    calc |(((L.map (fun l => (l.value : ℚ) / (T : ℚ) * 10000)).map
          (fun x => (jsRound x : ℚ))).sum - 10000)| * 200 ≤
        ((L.length : ℚ) / 2) * 200 := by
          apply mul_le_mul_of_nonneg_right hclose
          norm_num
      _ = (L.length : ℚ) * 100 := by ring
  · simp [aggregateLanguages, langAcc]

/-- Witness for C8: two repositories sharing TypeScript plus JavaScript and
Python aggregate to 3800 bytes with per-entry percentages given by the
rounding formula. -/
theorem aggregateLanguages_totals_and_percentages_witness :
    ((aggregateLanguages
        [RepoLanguagesView.mk (LanguagesConnection.mk
          [LanguageEdge.mk 1000 (LangNode.mk "#3178c6" "TypeScript"),
           LanguageEdge.mk 500 (LangNode.mk "#f1e05a" "JavaScript")]),
         RepoLanguagesView.mk (LanguagesConnection.mk
          [LanguageEdge.mk 2000 (LangNode.mk "#3178c6" "TypeScript"),
           LanguageEdge.mk 300 (LangNode.mk "#3572A5" "Python")])]).languages.map
      (fun l => l.value)).sum =
      (aggregateLanguages
        [RepoLanguagesView.mk (LanguagesConnection.mk
          [LanguageEdge.mk 1000 (LangNode.mk "#3178c6" "TypeScript"),
           LanguageEdge.mk 500 (LangNode.mk "#f1e05a" "JavaScript")]),
         RepoLanguagesView.mk (LanguagesConnection.mk
          [LanguageEdge.mk 2000 (LangNode.mk "#3178c6" "TypeScript"),
           LanguageEdge.mk 300 (LangNode.mk "#3572A5" "Python")])]).codeByteTotal ∧
    aggregateLanguages [] = AggregatedLanguages.mk [] 0 := by
  have main := aggregateLanguages_totals_and_percentages
    [RepoLanguagesView.mk (LanguagesConnection.mk
      [LanguageEdge.mk 1000 (LangNode.mk "#3178c6" "TypeScript"),
       LanguageEdge.mk 500 (LangNode.mk "#f1e05a" "JavaScript")]),
     RepoLanguagesView.mk (LanguagesConnection.mk
      [LanguageEdge.mk 2000 (LangNode.mk "#3178c6" "TypeScript"),
       LanguageEdge.mk 300 (LangNode.mk "#3572A5" "Python")])]
  exact ⟨main.1, main.2.2.2⟩

/-! ## Computed-stats synthesizer (`calculateComputedStats`, `src/unnamed/part_000`) -/

/-- JS `String.prototype.startsWith`, as prefix comparison on the character
sequence. -/
def strStartsWith (s p : String) : Bool := List.isPrefixOf p.data s.data

/-- A topic frequency entry (`TopicCount`). -/
structure TopicCount where
  name : String
  count : Nat
deriving DecidableEq, Repr

/-- The per-repository record `calculateComputedStats` consumes
(`src/unnamed/part_000` lines 497-507). -/
structure RepoInfoFull where
  stars : Nat
  forks : Nat
  isArchived : Bool
  isFork : Bool
  isPrivate : Bool
  topics : List String
  updatedAt : String
  createdAt : String
  languages : LanguagesConnection
deriving DecidableEq, Repr

/-- Type `ComputedStats`: the record `calculateComputedStats` returns.
`averageStarsPerRepo` and the growth percentage are JS floats modelled in
`ℚ`; a JS `null` becomes `none`. -/
structure ComputedStats where
  totalRepos : Nat
  publicRepos : Nat
  privateRepos : Nat
  archivedRepos : Nat
  forkedRepos : Nat
  originalRepos : Nat
  activeRepos : Nat
  reposWithStars : Nat
  reposCreatedThisYear : Nat
  averageStarsPerRepo : ℚ
  languageCount : Nat
  primaryLanguage : Option String
  primaryLanguageThisYear : Option String
  topLanguagesThisYear : List Language
  totalTopics : Nat
  topTopics : List TopicCount
  allTopics : List String
  contributionsThisYear : Nat
  contributionsLastYear : Nat
  yearOverYearGrowth : Option ℚ
  mostProductiveMonth : Option MonthlyContribution
deriving DecidableEq, Repr

/-- JS `topLanguages[0]?.languageName || null`: `null` when there is no
entry, and also when the name is the empty string (falsy). -/
def headLanguageNameOrNull (ls : List Language) : Option String :=
  match ls.head? with
  | some l => if l.languageName = "" then none else some l.languageName
  | none => none

/-- Function `calculateComputedStats` from `src/unnamed/part_000` (lines 496-608).
`currentYear` models `new Date().getFullYear()`, an environment input. -/
def calculateComputedStats (currentYear : Int)
    (repoInfoList : List RepoInfoFull) (topLanguages : List Language)
    (contributionStats : ContributionStats) : ComputedStats :=
  let currentYearStr := toString currentYear
  let lastYearStr := toString (currentYear - 1)
  let totalRepos := repoInfoList.length
  let publicRepos := (repoInfoList.filter (fun r => !r.isPrivate)).length
  let privateRepos := (repoInfoList.filter (fun r => r.isPrivate)).length
  let archivedRepos := (repoInfoList.filter (fun r => r.isArchived)).length
  let forkedRepos := (repoInfoList.filter (fun r => r.isFork)).length
  let originalRepos := totalRepos - forkedRepos
  let activeRepos :=
    (repoInfoList.filter (fun r => strStartsWith r.updatedAt currentYearStr)).length
  let reposWithStars := (repoInfoList.filter (fun r => r.stars > 0)).length
  let reposCreatedThisYear :=
    (repoInfoList.filter (fun r => strStartsWith r.createdAt currentYearStr)).length
  let totalStars : Nat := repoInfoList.foldl (fun sum r => sum + r.stars) 0
  let averageStarsPerRepo : ℚ :=
    if totalRepos > 0 then round2 ((totalStars : ℚ) / (totalRepos : ℚ)) else 0
  let languageCount := topLanguages.length
  let primaryLanguage := headLanguageNameOrNull topLanguages
  let reposThisYear :=
    repoInfoList.filter (fun r => strStartsWith r.updatedAt currentYearStr)
  let languagesThisYear :=
    (aggregateLanguages (reposThisYear.map
      (fun r => RepoLanguagesView.mk r.languages))).languages
  let topLanguagesThisYear := languagesThisYear.take 10
  let primaryLanguageThisYear := headLanguageNameOrNull topLanguagesThisYear
  let contributionsThisYear : Nat :=
    (contributionStats.monthlyBreakdown.filter
      (fun m => strStartsWith m.month currentYearStr)).foldl
      (fun sum m => sum + m.contributions) 0
  let contributionsLastYear : Nat :=
    (contributionStats.monthlyBreakdown.filter
      (fun m => strStartsWith m.month lastYearStr)).foldl
      (fun sum m => sum + m.contributions) 0
  let yearOverYearGrowth : Option ℚ :=
    if contributionsLastYear > 0 then
      some ((jsRound ((((contributionsThisYear : ℚ) - (contributionsLastYear : ℚ)) /
        (contributionsLastYear : ℚ)) * 10000) : ℚ) / 100)
    else none
  let mostProductiveMonth :=
    contributionStats.monthlyBreakdown.foldl
      (fun best m =>
        match best with
        | none => some m
        | some b => if m.contributions > b.contributions then some m else some b)
      none
  let topicState := repoInfoList.foldl
    (fun st r => r.topics.foldl
      (fun st t => (bumpAssoc st.1 t 1, if t ∈ st.2 then st.2 else st.2 ++ [t])) st)
    ([], [])
  let topTopics :=
    ((topicState.1.map (fun p => TopicCount.mk p.1 p.2)).mergeSort
      (fun a b => decide (b.count ≤ a.count))).take 20
  let allTopics := topicState.2.mergeSort strLe
  let totalTopics := allTopics.length
  { totalRepos := totalRepos
    publicRepos := publicRepos
    privateRepos := privateRepos
    archivedRepos := archivedRepos
    forkedRepos := forkedRepos
    originalRepos := originalRepos
    activeRepos := activeRepos
    reposWithStars := reposWithStars
    reposCreatedThisYear := reposCreatedThisYear
    averageStarsPerRepo := averageStarsPerRepo
    languageCount := languageCount
    primaryLanguage := primaryLanguage
    primaryLanguageThisYear := primaryLanguageThisYear
    topLanguagesThisYear := topLanguagesThisYear
    totalTopics := totalTopics
    topTopics := topTopics
    allTopics := allTopics
    contributionsThisYear := contributionsThisYear
    contributionsLastYear := contributionsLastYear
    yearOverYearGrowth := yearOverYearGrowth
    mostProductiveMonth := mostProductiveMonth }

lemma foldl_add_contributions (l : List MonthlyContribution) :
    l.foldl (fun sum m => sum + m.contributions) 0 =
      (l.map (fun m => m.contributions)).sum := by
  have aux : ∀ (l : List MonthlyContribution) (n : Nat),
      l.foldl (fun sum m => sum + m.contributions) n =
        n + (l.map (fun m => m.contributions)).sum := by
    intro l
    induction l with
    | nil => intro n; simp
    | cons m rest ih =>
      intro n
      rw [List.foldl_cons, ih (n + m.contributions)]
      simp only [List.map_cons, List.sum_cons]
      omega
  rw [aux l 0]
  omega

/-- C9: `calculateComputedStats` reports
`yearOverYearGrowth = round((thisYear - lastYear) / lastYear * 10000) / 100`
whenever the prior year's summed monthly-breakdown contributions are
positive, and reports "not applicable" (`none`) — never a division error —
whenever the prior year's total is zero. -/
theorem calculateComputedStats_yearOverYearGrowth (currentYear : Int)
    (repoInfoList : List RepoInfoFull) (topLanguages : List Language)
    (cs : ContributionStats) :
    (((cs.monthlyBreakdown.filter
        (fun m => strStartsWith m.month (toString (currentYear - 1)))).map
        (fun m => m.contributions)).sum > 0 →
      (calculateComputedStats currentYear repoInfoList topLanguages
          cs).yearOverYearGrowth =
        some ((jsRound ((((((cs.monthlyBreakdown.filter
            (fun m => strStartsWith m.month (toString currentYear))).map
            (fun m => m.contributions)).sum : Nat) : ℚ) -
          ((((cs.monthlyBreakdown.filter
            (fun m => strStartsWith m.month (toString (currentYear - 1)))).map
            (fun m => m.contributions)).sum : Nat) : ℚ)) /
          ((((cs.monthlyBreakdown.filter
            (fun m => strStartsWith m.month (toString (currentYear - 1)))).map
            (fun m => m.contributions)).sum : Nat) : ℚ) * 10000) : ℚ) / 100)) ∧
    (((cs.monthlyBreakdown.filter
        (fun m => strStartsWith m.month (toString (currentYear - 1)))).map
        (fun m => m.contributions)).sum = 0 →
      (calculateComputedStats currentYear repoInfoList topLanguages
          cs).yearOverYearGrowth = none) := by
  have hproj : (calculateComputedStats currentYear repoInfoList topLanguages
      cs).yearOverYearGrowth =
      (if (cs.monthlyBreakdown.filter
          (fun m => strStartsWith m.month (toString (currentYear - 1)))).foldl
          (fun sum m => sum + m.contributions) 0 > 0 then
        some ((jsRound ((((((cs.monthlyBreakdown.filter
            (fun m => strStartsWith m.month (toString currentYear))).foldl
            (fun sum m => sum + m.contributions) 0 : Nat) : ℚ) -
          (((cs.monthlyBreakdown.filter
            (fun m => strStartsWith m.month (toString (currentYear - 1)))).foldl
            (fun sum m => sum + m.contributions) 0 : Nat) : ℚ)) /
          (((cs.monthlyBreakdown.filter
            (fun m => strStartsWith m.month (toString (currentYear - 1)))).foldl
            (fun sum m => sum + m.contributions) 0 : Nat) : ℚ)) * 10000) : ℚ) / 100)
      else none) := rfl
  rw [hproj]
  simp only [foldl_add_contributions]
  constructor
  · intro hpos
    rw [if_pos hpos]
  · intro hzero
    rw [if_neg (by omega)]

/-- Witness for C9: a last-year total of 100 against a this-year total of 150
yields 50 percent growth. -/
theorem calculateComputedStats_yearOverYearGrowth_witness :
    (calculateComputedStats 2024 [] []
        (ContributionStats.mk 0 0 "Monday" 0 0 0
          [MonthlyContribution.mk "2023-01" 100,
           MonthlyContribution.mk "2024-01" 150])).yearOverYearGrowth =
      some 50 := by
  have main := (calculateComputedStats_yearOverYearGrowth 2024 [] []
    (ContributionStats.mk 0 0 "Monday" 0 0 0
      [MonthlyContribution.mk "2023-01" 100,
       MonthlyContribution.mk "2024-01" 150])).1
  have e1 : ((((ContributionStats.mk 0 0 "Monday" 0 0 0
      [MonthlyContribution.mk "2023-01" 100,
       MonthlyContribution.mk "2024-01" 150]).monthlyBreakdown.filter
      (fun m => strStartsWith m.month (toString ((2024 : ℤ) - 1)))).map
      (fun m => m.contributions)).sum : Nat) = 100 := by decide
  have e2 : ((((ContributionStats.mk 0 0 "Monday" 0 0 0
      [MonthlyContribution.mk "2023-01" 100,
       MonthlyContribution.mk "2024-01" 150]).monthlyBreakdown.filter
      (fun m => strStartsWith m.month (toString (2024 : ℤ)))).map
      (fun m => m.contributions)).sum : Nat) = 150 := by decide
  have h := main (by rw [e1]; omega)
  rw [h, e1, e2]
  norm_num [jsRound]

end StatsAction
